import Mathlib

/-!
Verification of the feedback aggregation pipeline of the
content-creator-agent repository.

The development shallowly embeds the three source files:

* `src/workers/feedbackLoop.pipeline.ts` (the Graph-with-fallback variant):
  `fetchIgMetrics`, `runFeedbackLoopPipeline`;
* `src/jobs/feedbackCollect.ts`: `computePerfScore`, `runFeedbackCollectJob`,
  `updateProductPerformance`, `updateStylePerformance`;
* the FeedbackStore collaborator (Supabase) is modelled as association-list
  tables with upsert-on-conflict-key semantics.

JavaScript numbers are modelled as exact rationals (`ℚ`); wall-clock
timestamps (`collected_at`, `last_updated`) are modelled only where a claim
needs them (as an abstract `Nat` tick), since real time is outside the
embedding.  Fallible operations are modelled with `Except`/`Option`, and the
environment (database reads, HTTP responses, upsert outcomes) is passed in
explicitly so that every run is a pure function of its environment.
-/

namespace ContentCreator

/-- Engagement metrics (`Metrics` in `feedbackLoop.pipeline.ts`): like and
comment counts plus an optional permalink. -/
structure Metrics where
  like_count : ℚ
  comments_count : ℚ
  permalink : Option String
  deriving Repr, DecidableEq

/-- The stub observation `{ like_count: 1, comments_count: 0 }` used when the
Graph API is disabled or a call fails. -/
def stubMetrics : Metrics :=
  { like_count := 1, comments_count := 0, permalink := none }

/-- `computePerfScore` from `src/jobs/feedbackCollect.ts`:
`likes + 2 * comments`. -/
def computePerfScore (likes comments : ℚ) : ℚ :=
  likes + 2 * comments

/-- Look up the value stored under key `k` in an association-list table
(the model of a `select ... eq(key) maybeSingle()` read). -/
def lookupEntry {α β : Type} [DecidableEq α] (tbl : List (α × β)) (k : α) : Option β :=
  (tbl.find? (fun kv => decide (kv.1 = k))).map (fun kv => kv.2)

/-- Store `v` under key `k`: the model of the store's `upsert` with
`onConflict` on the key column (update the conflicting row in place,
otherwise insert). -/
def setEntry {α β : Type} [DecidableEq α] (tbl : List (α × β)) (k : α) (v : β) :
    List (α × β) :=
  if tbl.any (fun kv => decide (kv.1 = k)) then
    tbl.map (fun kv => if kv.1 = k then (k, v) else kv)
  else
    tbl ++ [(k, v)]

/-- The EMA used by `updateProductPerformance` (feedbackCollect.ts lines
129–132): `newPerf = perf` when no numeric previous score exists, else
`existing * 0.7 + perf * 0.3`. -/
def mergeProductScore (previous : Option ℚ) (observation : ℚ) : ℚ :=
  match previous with
  | some p => p * (7 / 10) + observation * (3 / 10)
  | none => observation

/-- `updateProductPerformance` from feedbackCollect.ts: read the existing
`perf_score` for the product, merge with the EMA, and upsert the row keyed
on `product_id`. -/
def updateProductPerformance (tbl : List (Int × ℚ)) (productId : Int) (perf : ℚ) :
    List (Int × ℚ) :=
  setEntry tbl productId (mergeProductScore (lookupEntry tbl productId) perf)

/-- A `style_performance` row: running impression and performance totals and
the derived engagement ratio. -/
structure StyleAgg where
  impressions : ℚ
  perf_score : ℚ
  engagement : ℚ
  deriving Repr, DecidableEq

/-- The additive merge performed by `updateStylePerformance`
(feedbackCollect.ts lines 167–176): totals start from the observation and add
the existing row when present; engagement is `totalPerf / totalImpressions`
when `totalImpressions > 0` and `0` otherwise. -/
def mergeStyleAggregate (previous : Option (ℚ × ℚ)) (obsImpressions obsPerf : ℚ) :
    StyleAgg :=
  let totalImpressions := obsImpressions + (match previous with
    | none => 0
    | some pr => pr.1)
  let totalPerf := obsPerf + (match previous with
    | none => 0
    | some pr => pr.2)
  { impressions := totalImpressions
    perf_score := totalPerf
    engagement := if totalImpressions > 0 then totalPerf / totalImpressions else 0 }

/-- `updateStylePerformance` from feedbackCollect.ts: read the existing
`(impressions, perf_score)` for the `(style, channel)` key, merge additively,
and upsert the row keyed on `style, channel`. -/
def updateStylePerformance (tbl : List ((String × String) × StyleAgg))
    (style channel : String) (impressions perf : ℚ) :
    List ((String × String) × StyleAgg) :=
  let existing := (lookupEntry tbl (style, channel)).map
    (fun a => (a.impressions, a.perf_score))
  setEntry tbl (style, channel) (mergeStyleAggregate existing impressions perf)

/-! ### MetricsProvider: `fetchIgMetrics` (feedbackLoop.pipeline.ts) -/

/-- The successfully parsed JSON body of a Graph API response; each field may
be absent (`json.field` is `undefined`/`null` in the source). -/
structure GraphJson where
  like_count : Option ℚ
  comments_count : Option ℚ
  permalink : Option String
  deriving Repr, DecidableEq

/-- An HTTP response from the Graph API: `ok`/`status`/raw body `text` as in
the source, and `parsed` standing for the outcome of `JSON.parse(text)`. -/
structure GraphResponse where
  ok : Bool
  status : Nat
  text : String
  parsed : Option GraphJson
  deriving Repr, DecidableEq

/-- Errors thrown by `fetchIgMetrics`: a non-2xx status (with status and raw
body, as in the thrown message) or an unparseable body. -/
inductive ProviderError where
  | graphError (status : Nat) (body : String)
  | nonJson
  deriving Repr, DecidableEq

/-- `fetchIgMetrics` from feedbackLoop.pipeline.ts: throw on `!res.ok`, throw
on non-JSON, otherwise return the metrics with `json.field ?? 0` defaulting for
the counts and `json.permalink ?? ""` for the permalink. -/
def fetchIgMetrics (res : GraphResponse) : Except ProviderError Metrics :=
  if !res.ok then
    Except.error (ProviderError.graphError res.status res.text)
  else
    match res.parsed with
    | none => Except.error ProviderError.nonJson
    | some json =>
        Except.ok
          { like_count := json.like_count.getD 0
            comments_count := json.comments_count.getD 0
            permalink := some (json.permalink.getD "") }

/-! ### FeedbackCollectionPipeline: `runFeedbackLoopPipeline`
(feedbackLoop.pipeline.ts, Graph-with-fallback variant) -/

/-- A row of the `generated_posts` selection (`id, product_id, style,
channel_published, meta_post_id`); `style`/`channel_published` use `""` for an
empty or missing column. -/
structure PipelinePost where
  id : String
  product_id : Int
  style : String
  channel_published : String
  meta_post_id : String
  deriving Repr, DecidableEq

/-- The `FeedbackResult` record accumulated per post by the pipeline. -/
structure FeedbackResult where
  post_id : String
  product_id : Int
  style : String
  channel : String
  ig_media_id : String
  metrics : Metrics
  deriving Repr, DecidableEq

/-- Build the `FeedbackResult` pushed for a post: `channel` falls back to
`"IG"` when `channel_published` is falsy. -/
def mkFeedbackResult (p : PipelinePost) (m : Metrics) : FeedbackResult :=
  { post_id := p.id
    product_id := p.product_id
    style := p.style
    channel := if p.channel_published = "" then "IG" else p.channel_published
    ig_media_id := p.meta_post_id
    metrics := m }

/-- The `post_feedback` upsert payload built for each result (the
`collected_at` wall-clock timestamp is not modelled). -/
structure FeedbackRow where
  generated_post_id : String
  channel : String
  meta_post_id : String
  ig_media_id : String
  metrics : Metrics
  deriving Repr, DecidableEq

/-- The `post_feedback` row upserted for a result. -/
def mkFeedbackRow (r : FeedbackResult) : FeedbackRow :=
  { generated_post_id := r.post_id
    channel := r.channel
    meta_post_id := r.ig_media_id
    ig_media_id := r.ig_media_id
    metrics := r.metrics }

/-- The environment a pipeline run reads: the outcome of the initial
`generated_posts` selection, the `META_ACCESS_TOKEN` value, the HTTP response
the Graph API would give per media id, and whether the `post_feedback` upsert
call throws for a given post id. -/
structure PipelineEnv where
  selectResult : Except String (List PipelinePost)
  accessToken : String
  http : String → GraphResponse
  upsertFeedbackThrows : String → Bool

/-- Metrics collection for one post (pipeline step 2): when the token is
configured, call `fetchIgMetrics` and fall back to `stubMetrics` on error
(the inner catch); when not, use `stubMetrics` without any call.  The second
component records the Graph calls made. -/
def collectPost (env : PipelineEnv) (p : PipelinePost) :
    FeedbackResult × List String :=
  if env.accessToken ≠ "" then
    match fetchIgMetrics (env.http p.meta_post_id) with
    | Except.ok m => (mkFeedbackResult p m, [p.meta_post_id])
    | Except.error _ => (mkFeedbackResult p stubMetrics, [p.meta_post_id])
  else
    (mkFeedbackResult p stubMetrics, [])

/-- `likes + 2 * comments`: the inline scoring rule of pipeline step 4
(`perf = (like_count ?? 0) + 2 * (comments_count ?? 0)`). -/
def perfOf (m : Metrics) : ℚ :=
  m.like_count + 2 * m.comments_count

/-- `map.set(k, (map.get(k) ?? 0) + v)` on a JavaScript `Map` kept as an
insertion-ordered association list: an existing key keeps its position and is
bumped; a new key is appended. -/
def mapBump {α : Type} [DecidableEq α] : List (α × ℚ) → α → ℚ → List (α × ℚ)
  | [], k, v => [(k, v)]
  | kv :: rest, k, v =>
      if kv.1 = k then (kv.1, kv.2 + v) :: rest
      else kv :: mapBump rest k v

/-- The in-batch style key: `(style || "unknown") + "|" + channel`. -/
def styleKeyOf (r : FeedbackResult) : String :=
  (if r.style = "" then "unknown" else r.style) ++ "|" ++ r.channel

/-- The in-batch `prodMap` accumulation of pipeline step 4. -/
def buildProdMap (results : List FeedbackResult) : List (Int × ℚ) :=
  results.foldl (fun m r => mapBump m r.product_id (perfOf r.metrics)) []

/-- The in-batch `styleMap` accumulation of pipeline step 4. -/
def buildStyleMap (results : List FeedbackResult) : List (String × ℚ) :=
  results.foldl (fun m r => mapBump m (styleKeyOf r) (perfOf r.metrics)) []

/-- A `style_performance` upsert payload of the pipeline; `channel` is `none`
when destructuring `key.split("|")` leaves it undefined. -/
structure StyleRow where
  style : String
  channel : Option String
  perf_score : ℚ
  deriving Repr, DecidableEq

/-- Decode one `styleMap` entry into its upsert row:
`const [style, channel] = key.split("|")` (splitting on the single character
`'|'`, extra segments dropped by the destructuring). -/
def decodeStyleRow (kv : String × ℚ) : StyleRow :=
  match kv.1.split (fun ch => ch == '|') with
  | [] => { style := "", channel := none, perf_score := kv.2 }
  | [s] => { style := s, channel := none, perf_score := kv.2 }
  | s :: c :: _ => { style := s, channel := some c, perf_score := kv.2 }

/-- The observable outcome of a pipeline run: the logged attempted/collected
counts, the Graph calls made, the collected results, and the three groups of
upsert payloads issued. -/
structure RunOutput where
  attempted : Nat
  fetchCalls : List String
  results : List FeedbackResult
  feedbackWrites : List FeedbackRow
  prodUpdates : List (Int × ℚ)
  styleUpdates : List StyleRow
  collected : Nat
  deriving Repr, DecidableEq

/-- The outcome of a run that returns before writing anything. -/
def emptyRunOutput : RunOutput :=
  { attempted := 0, fetchCalls := [], results := [], feedbackWrites := []
    prodUpdates := [], styleUpdates := [], collected := 0 }

/-- `runFeedbackLoopPipeline` (Graph-with-fallback variant): re-throw the
selection error; return early on an empty selection; collect metrics per post
with stub fallback; upsert `post_feedback` per result (a throwing upsert is
caught and logged, producing no write); then compute the in-batch maps and
issue the `product_performance` and `style_performance` upserts. -/
def runFeedbackLoopPipeline (env : PipelineEnv) : Except String RunOutput :=
  match env.selectResult with
  | Except.error e => Except.error e
  | Except.ok posts =>
    if posts.isEmpty then Except.ok emptyRunOutput
    else
      let gathered := posts.map (collectPost env)
      let results := gathered.map Prod.fst
      let fetchCalls := (gathered.map Prod.snd).flatten
      if results.isEmpty then
        Except.ok { emptyRunOutput with
          attempted := posts.length, fetchCalls := fetchCalls }
      else
        Except.ok
          { attempted := posts.length
            fetchCalls := fetchCalls
            results := results
            feedbackWrites :=
              (results.filter (fun r => !env.upsertFeedbackThrows r.post_id)).map
                mkFeedbackRow
            prodUpdates := buildProdMap results
            styleUpdates := (buildStyleMap results).map decodeStyleRow
            collected := results.length }

/-! ### The feedbackCollect job: `runFeedbackCollectJob`
(src/jobs/feedbackCollect.ts) -/

/-- A pending `post_feedback` row selected by the job (`channel = "IG"`,
`collected_at` null). -/
structure PendingRow where
  id : String
  generated_post_id : String
  channel : String
  ig_media_id : String
  deriving Repr, DecidableEq

/-- The `generated_posts` metadata loaded per row (step 3 of the job);
`channel_published` uses `""` for a missing column. -/
structure PostMeta where
  product_id : Int
  style : String
  channel_published : String
  deriving Repr, DecidableEq

/-- The raw Graph metrics JSON used by the job; each field may be absent. -/
structure CollectMetrics where
  like_count : Option ℚ
  comments_count : Option ℚ
  impressions : Option ℚ
  deriving Repr, DecidableEq

/-- The environment a collect-job run reads: the pending selection, the
provider outcome per media id, whether the `post_feedback` update succeeds for
a row id, and the per-post metadata lookup (`none` models both a lookup error
and a missing post). -/
structure CollectEnv where
  pending : Except String (List PendingRow)
  fetchResult : String → Except String CollectMetrics
  updateFeedbackOk : String → Bool
  postLookup : String → Option PostMeta

/-- The store state threaded through a collect-job run: the successful
`post_feedback` updates and the two aggregate tables. -/
structure CollectState where
  feedbackUpdates : List (String × CollectMetrics)
  productTable : List (Int × ℚ)
  styleTable : List ((String × String) × StyleAgg)
  deriving Repr, DecidableEq

/-- One iteration of the job's loop: fetch metrics (a throw is caught and the
row skipped); update `post_feedback` (on error, `continue` — nothing else
happens for this row); load the post metadata (on error, `continue`, keeping
the feedback update); otherwise compute the score and update both aggregate
tables. -/
def processRow (env : CollectEnv) (st : CollectState) (row : PendingRow) :
    CollectState :=
  match env.fetchResult row.ig_media_id with
  | Except.error _ => st
  | Except.ok metrics =>
    if env.updateFeedbackOk row.id then
      let st1 : CollectState :=
        { st with feedbackUpdates := st.feedbackUpdates ++ [(row.id, metrics)] }
      match env.postLookup row.generated_post_id with
      | none => st1
      | some post =>
        let likes := metrics.like_count.getD 0
        let comments := metrics.comments_count.getD 0
        let impressions := metrics.impressions.getD 0
        let perf := computePerfScore likes comments
        let channel :=
          if post.channel_published = "" then row.channel
          else post.channel_published
        { st1 with
          productTable :=
            updateProductPerformance st1.productTable post.product_id perf
          styleTable :=
            updateStylePerformance st1.styleTable post.style channel
              impressions perf }
    else st

/-- `runFeedbackCollectJob`: a failing pending-selection read throws the
wrapped error; otherwise every pending row is processed in order. -/
def runFeedbackCollectJob (env : CollectEnv) (start : CollectState) :
    Except String CollectState :=
  match env.pending with
  | Except.error e => Except.error ("Error leyendo post_feedback: " ++ e)
  | Except.ok pending => Except.ok (pending.foldl (processRow env) start)

/-! ### FeedbackStore: the `post_feedback` upsert -/

/-- A durable feedback record keyed on the post id; `collectedAt` is an
abstract timestamp tick. -/
structure FeedbackRecord where
  postId : String
  channel : String
  externalMediaId : String
  metrics : Metrics
  collectedAt : Nat
  deriving Repr, DecidableEq

/-- Modelled from the spec: the FeedbackStore collaborator's `upsertFeedback`
(the store itself is Supabase, outside `src/`) — an upsert keyed on `postId`
as invoked with `onConflict: "generated_post_id"`: a conflicting row is
overwritten in place, otherwise the record is inserted. -/
def upsertFeedback (tbl : List FeedbackRecord) (r : FeedbackRecord) :
    List FeedbackRecord :=
  if tbl.any (fun q => decide (q.postId = r.postId)) then
    tbl.map (fun q => if q.postId = r.postId then r else q)
  else
    tbl ++ [r]

/-! ### Concrete fixtures used by the witnesses -/

/-- Fixture: first published post. -/
def postA : PipelinePost :=
  { id := "p1", product_id := 1, style := "boho", channel_published := "IG",
    meta_post_id := "m1" }

/-- Fixture: second published post. -/
def postB : PipelinePost :=
  { id := "p2", product_id := 2, style := "boho", channel_published := "IG",
    meta_post_id := "m2" }

/-- Fixture: third published post. -/
def postC : PipelinePost :=
  { id := "p3", product_id := 3, style := "mini", channel_published := "IG",
    meta_post_id := "m3" }

/-- Fixture: a 200 Graph response carrying 10 likes and 5 comments. -/
def okResponse : GraphResponse :=
  { ok := true, status := 200, text := "",
    parsed := some { like_count := some 10, comments_count := some 5,
                     permalink := none } }

/-- Fixture: a 500 Graph response. -/
def errResponse : GraphResponse :=
  { ok := false, status := 500, text := "err", parsed := none }

/-- Fixture: a 3-post environment whose Graph call fails only for media
"m2". -/
def envIsolation : PipelineEnv :=
  { selectResult := Except.ok [postA, postB, postC]
    accessToken := "tok"
    http := fun mid => if mid = "m2" then errResponse else okResponse
    upsertFeedbackThrows := fun _ => false }

/-- Fixture: a published post of product 42. -/
def postF : PipelinePost :=
  { id := "pf", product_id := 42, style := "boho", channel_published := "IG",
    meta_post_id := "mf" }

/-- Fixture: a 1-post environment with no token whose feedback upsert
throws. -/
def envUpsertFail : PipelineEnv :=
  { selectResult := Except.ok [postF]
    accessToken := ""
    http := fun _ => errResponse
    upsertFeedbackThrows := fun _ => true }

/-- Fixture: the same 1-post environment with a succeeding feedback
upsert. -/
def envUpsertOk : PipelineEnv :=
  { selectResult := Except.ok [postF]
    accessToken := ""
    http := fun _ => errResponse
    upsertFeedbackThrows := fun _ => false }

/-- Fixture: a pending feedback row for the collect job. -/
def pendingRowW : PendingRow :=
  { id := "r1", generated_post_id := "g1", channel := "IG",
    ig_media_id := "mf" }

/-- Fixture: a collect-job environment whose post_feedback update fails for
every row. -/
def collectEnvW : CollectEnv :=
  { pending := Except.ok [pendingRowW]
    fetchResult := fun _ => Except.ok
      { like_count := some 10, comments_count := some 5,
        impressions := some 100 }
    updateFeedbackOk := fun _ => false
    postLookup := fun _ => some
      { product_id := 42, style := "boho", channel_published := "IG" } }

/-- Fixture: a collect-job environment whose pending read fails. -/
def collectEnvErr : CollectEnv :=
  { pending := Except.error "down"
    fetchResult := fun _ => Except.error "nope"
    updateFeedbackOk := fun _ => true
    postLookup := fun _ => none }

/-- Fixture: the empty collect-job state. -/
def emptyCollectState : CollectState :=
  { feedbackUpdates := [], productTable := [], styleTable := [] }

/-! ## Theorems -/

theorem lookupEntry_setEntry_self {α β : Type} [DecidableEq α]
    (tbl : List (α × β)) (k : α) (v : β) :
    lookupEntry (setEntry tbl k v) k = some v := by
  unfold setEntry
  split
  case isTrue h =>
    induction tbl with
    | nil => simp at h
    | cons hd tl ih =>
      by_cases hk : hd.1 = k
      · simp [lookupEntry, List.find?, hk]
      · simp only [List.map_cons, if_neg hk]
        have htl : tl.any (fun kv => decide (kv.1 = k)) = true := by
          simpa [List.any_cons, hk] using h
        simpa [lookupEntry, List.find?, hk] using ih htl
  case isFalse h =>
    induction tbl with
    | nil => simp [lookupEntry, List.find?]
    | cons hd tl ih =>
      have hk : ¬ hd.1 = k := by
        intro hkk
        exact h (by simp [List.any_cons, hkk])
      have htl : ¬ tl.any (fun kv => decide (kv.1 = k)) = true := by
        intro htl
        exact h (by simp [List.any_cons, htl])
      simpa [lookupEntry, List.find?, hk] using ih htl

/-- C1: for all non-negative integers l (like count) and c (comment count),
the performance score computed for a post equals `l + 2*c` — the
feedbackCollect job's `computePerfScore` and the pipeline's inline rule
`perfOf` agree on this — and `performanceScore(0,0) = 0`. -/
theorem computePerfScore_spec :
    (∀ l c : ℕ, computePerfScore l c = l + 2 * c) ∧
    (∀ m : Metrics, perfOf m = computePerfScore m.like_count m.comments_count) ∧
    computePerfScore 0 0 = 0 := by
  refine ⟨fun l c => rfl, fun m => rfl, ?_⟩
  simp [computePerfScore]

/-- C2: the product-aggregate merge stores the new observation when no
previous score exists for the product, and `0.7*p + 0.3*x` when a previous
value `p` exists (EMA 70/30). -/
theorem mergeProductScore_spec (tbl : List (Int × ℚ)) (pid : Int) (x : ℚ) :
    (lookupEntry tbl pid = none →
      lookupEntry (updateProductPerformance tbl pid x) pid = some x) ∧
    (∀ p : ℚ, lookupEntry tbl pid = some p →
      lookupEntry (updateProductPerformance tbl pid x) pid
        = some (7 / 10 * p + 3 / 10 * x)) := by
  constructor
  · intro h
    unfold updateProductPerformance
    rw [lookupEntry_setEntry_self, h]
    rfl
  · intro p h
    unfold updateProductPerformance
    rw [lookupEntry_setEntry_self, h]
    simp only [mergeProductScore]
    exact congrArg some (by ring)

/-- Witness for C2 at concrete tables: a present previous score 10 merged
with observation 20, and an absent one with observation 5. -/
theorem mergeProductScore_spec_witness :
    lookupEntry (updateProductPerformance [((1 : Int), (10 : ℚ))] 1 20) 1
      = some (7 / 10 * 10 + 3 / 10 * 20) ∧
    lookupEntry (updateProductPerformance ([] : List (Int × ℚ)) 2 5) 2
      = some 5 :=
  ⟨(mergeProductScore_spec [((1 : Int), (10 : ℚ))] 1 20).2 10 (by decide),
   (mergeProductScore_spec ([] : List (Int × ℚ)) 2 5).1 (by decide)⟩

theorem mergeStyleAggregate_fields (prev : Option (ℚ × ℚ)) (i p : ℚ) :
    (mergeStyleAggregate prev i p).impressions = (prev.getD (0, 0)).1 + i ∧
    (mergeStyleAggregate prev i p).perf_score = (prev.getD (0, 0)).2 + p ∧
    ((mergeStyleAggregate prev i p).impressions > 0 →
      (mergeStyleAggregate prev i p).engagement
        = (mergeStyleAggregate prev i p).perf_score
            / (mergeStyleAggregate prev i p).impressions) ∧
    ((mergeStyleAggregate prev i p).impressions = 0 →
      (mergeStyleAggregate prev i p).engagement = 0) := by
  cases prev with
  | none =>
    refine ⟨by simp [mergeStyleAggregate], by simp [mergeStyleAggregate], ?_, ?_⟩
    · intro h
      simp only [mergeStyleAggregate] at h ⊢
      rw [if_pos h]
    · intro h
      simp only [mergeStyleAggregate] at h ⊢
      rw [if_neg (by rw [h]; exact lt_irrefl 0)]
  | some pr =>
    refine ⟨by simp [mergeStyleAggregate, add_comm], by simp [mergeStyleAggregate, add_comm], ?_, ?_⟩
    · intro h
      simp only [mergeStyleAggregate] at h ⊢
      rw [if_pos h]
    · intro h
      simp only [mergeStyleAggregate] at h ⊢
      rw [if_neg (by rw [h]; exact lt_irrefl 0)]

/-- C3: a style/channel merge with observed impressions `i` and observed perf
`p`, against previous aggregate `(I, P)` (`(0, 0)` when absent), stores
`impressions' = I + i`, `perfScore' = P + p`, and
`engagement' = perfScore'/impressions'` when `impressions' > 0` and `0` when
`impressions' = 0` — the zero-impressions case is a value, never an error. -/
theorem mergeStyleAggregate_spec (tbl : List ((String × String) × StyleAgg))
    (style channel : String) (i p I P : ℚ)
    (hprev : ((lookupEntry tbl (style, channel)).map
        (fun a => (a.impressions, a.perf_score))).getD (0, 0) = (I, P)) :
    ∃ agg : StyleAgg,
      lookupEntry (updateStylePerformance tbl style channel i p)
          (style, channel) = some agg ∧
      agg.impressions = I + i ∧
      agg.perf_score = P + p ∧
      (agg.impressions > 0 → agg.engagement = agg.perf_score / agg.impressions) ∧
      (agg.impressions = 0 → agg.engagement = 0) := by
  refine ⟨mergeStyleAggregate ((lookupEntry tbl (style, channel)).map
      (fun a => (a.impressions, a.perf_score))) i p, ?_, ?_⟩
  · simp only [updateStylePerformance]
    exact lookupEntry_setEntry_self tbl (style, channel) _
  · have h := mergeStyleAggregate_fields ((lookupEntry tbl (style, channel)).map
      (fun a => (a.impressions, a.perf_score))) i p
    rw [hprev] at h
    exact h

/-- Witness for C3: previous aggregate (10, 4) merged with observation
(2, 6), at a concrete table. -/
theorem mergeStyleAggregate_spec_witness :
    ∃ agg : StyleAgg,
      lookupEntry
          (updateStylePerformance
            [(("boho", "IG"),
              ({ impressions := 10, perf_score := 4, engagement := 2 / 5 } : StyleAgg))]
            "boho" "IG" 2 6)
          ("boho", "IG") = some agg ∧
      agg.impressions = 10 + 2 ∧
      agg.perf_score = 4 + 6 ∧
      (agg.impressions > 0 → agg.engagement = agg.perf_score / agg.impressions) ∧
      (agg.impressions = 0 → agg.engagement = 0) :=
  mergeStyleAggregate_spec
    [(("boho", "IG"),
      ({ impressions := 10, perf_score := 4, engagement := 2 / 5 } : StyleAgg))]
    "boho" "IG" 2 6 10 4 (by decide)

/-- C10: a successful (2xx) Graph response whose parsed JSON body lacks
`like_count` or `comments_count` yields `0` for the missing count(s), and the
empty string for a missing permalink, rather than failing; a missing field is
never a `ProviderError`. -/
theorem fetchIgMetrics_missing_fields (res : GraphResponse) (json : GraphJson)
    (hok : res.ok = true) (hp : res.parsed = some json) :
    ∃ m : Metrics, fetchIgMetrics res = Except.ok m ∧
      (json.like_count = none → m.like_count = 0) ∧
      (json.comments_count = none → m.comments_count = 0) ∧
      (json.permalink = none → m.permalink = some "") := by
  refine ⟨{ like_count := json.like_count.getD 0
            comments_count := json.comments_count.getD 0
            permalink := some (json.permalink.getD "") }, ?_, ?_, ?_, ?_⟩
  · simp [fetchIgMetrics, hok, hp]
  · intro h; simp [h]
  · intro h; simp [h]
  · intro h; simp [h]

/-- Witness for C10: a 200 response whose body parses to an object with all
three fields absent. -/
theorem fetchIgMetrics_missing_fields_witness :
    ∃ m : Metrics,
      fetchIgMetrics
          { ok := true, status := 200, text := "",
            parsed := some { like_count := none, comments_count := none,
                             permalink := none } }
        = Except.ok m ∧
      ((none : Option ℚ) = none → m.like_count = 0) ∧
      ((none : Option ℚ) = none → m.comments_count = 0) ∧
      ((none : Option String) = none → m.permalink = some "") :=
  fetchIgMetrics_missing_fields
    { ok := true, status := 200, text := "",
      parsed := some { like_count := none, comments_count := none,
                       permalink := none } }
    { like_count := none, comments_count := none, permalink := none }
    rfl rfl

theorem filter_map_overwrite_nil (pid : String) (r : FeedbackRecord)
    (hr : r.postId = pid) (tl : List FeedbackRecord)
    (htl : ∀ q ∈ tl, ¬ q.postId = pid) :
    ((tl.map (fun q => if q.postId = r.postId then r else q)).filter
        (fun q => decide (q.postId = pid))) = [] := by
  induction tl with
  | nil => rfl
  | cons hd tl2 ih =>
    have hhd : ¬ hd.postId = pid := htl hd (by simp)
    have hhd2 : ¬ hd.postId = r.postId := by rw [hr]; exact hhd
    simp only [List.map_cons, if_neg hhd2, List.filter_cons, decide_eq_true_eq]
    rw [if_neg (by simpa using hhd)]
    exact ih (fun q hq => htl q (by simp [hq]))

theorem upsertFeedback_filter (tbl : List FeedbackRecord) (pid : String)
    (r : FeedbackRecord) (hr : r.postId = pid)
    (htbl : (tbl.filter (fun q => decide (q.postId = pid))).length ≤ 1) :
    (upsertFeedback tbl r).filter (fun q => decide (q.postId = pid)) = [r] := by
  unfold upsertFeedback
  split
  case isTrue h =>
    induction tbl with
    | nil => simp at h
    | cons hd tl ih =>
      by_cases hq : hd.postId = pid
      · have hq2 : hd.postId = r.postId := by rw [hr]; exact hq
        have htl0 : (tl.filter (fun q => decide (q.postId = pid))).length = 0 := by
          have : (List.filter (fun q => decide (q.postId = pid)) (hd :: tl)).length
              = (tl.filter (fun q => decide (q.postId = pid))).length + 1 := by
            simp [List.filter_cons, hq]
          omega
        have htlnone : ∀ q ∈ tl, ¬ q.postId = pid := by
          intro q hq3 hq4
          have : q ∈ tl.filter (fun q => decide (q.postId = pid)) :=
            List.mem_filter.mpr ⟨hq3, by simpa using hq4⟩
          rw [List.length_eq_zero] at htl0
          simp [htl0] at this
        simp only [List.map_cons, if_pos hq2, List.filter_cons, decide_eq_true_eq]
        rw [if_pos hr]
        rw [filter_map_overwrite_nil pid r hr tl htlnone]
      · have hq2 : ¬ hd.postId = r.postId := by rw [hr]; exact hq
        have hany : tl.any (fun q => decide (q.postId = r.postId)) = true := by
          have := h
          simp only [List.any_cons] at this
          rcases Bool.or_eq_true_iff.mp this with h1 | h1
          · exact absurd (of_decide_eq_true h1) hq2
          · exact h1
        have htbl2 : (tl.filter (fun q => decide (q.postId = pid))).length ≤ 1 := by
          have : List.filter (fun q => decide (q.postId = pid)) (hd :: tl)
              = tl.filter (fun q => decide (q.postId = pid)) := by
            simp [List.filter_cons, hq]
          rw [this] at htbl
          exact htbl
        simp only [List.map_cons, if_neg hq2, List.filter_cons, decide_eq_true_eq]
        rw [if_neg hq]
        exact ih htbl2 hany
  case isFalse h =>
    have hnone : ∀ q ∈ tbl, ¬ q.postId = pid := by
      intro q hq hq2
      exact h (List.any_eq_true.mpr ⟨q, hq, by rw [hr]; simpa using hq2⟩)
    rw [List.filter_append]
    rw [List.filter_eq_nil.mpr (by intro q hq; simpa using hnone q hq)]
    simp [hr]

/-- C8: the feedback-record upsert is idempotent keyed on postId: starting
from a table with at most one record for the post, upserting `{postId,
metrics}` twice (with successive collection timestamps) leaves exactly one
feedback record for that postId — the second record, carrying the latest
`collectedAt` — not two. -/
theorem upsertFeedback_idempotent (tbl : List FeedbackRecord) (pid : String)
    (r1 r2 : FeedbackRecord)
    (htbl : (tbl.filter (fun q => decide (q.postId = pid))).length ≤ 1)
    (h1 : r1.postId = pid) (h2 : r2.postId = pid)
    (hm : r1.metrics = r2.metrics) :
    (upsertFeedback (upsertFeedback tbl r1) r2).filter
        (fun q => decide (q.postId = pid)) = [r2] := by
  have hstep := upsertFeedback_filter tbl pid r1 h1 htbl
  have hlen : ((upsertFeedback tbl r1).filter
      (fun q => decide (q.postId = pid))).length ≤ 1 := by
    rw [hstep]; simp
  exact upsertFeedback_filter (upsertFeedback tbl r1) pid r2 h2 hlen

/-- Witness for C8: the same post collected at ticks 1 and 2 on an initially
empty table. -/
theorem upsertFeedback_idempotent_witness :
    (upsertFeedback
        (upsertFeedback []
          { postId := "p1", channel := "IG", externalMediaId := "m1",
            metrics := stubMetrics, collectedAt := 1 })
        { postId := "p1", channel := "IG", externalMediaId := "m1",
          metrics := stubMetrics, collectedAt := 2 }).filter
        (fun q => decide (q.postId = "p1"))
      = [{ postId := "p1", channel := "IG", externalMediaId := "m1",
           metrics := stubMetrics, collectedAt := 2 }] :=
  upsertFeedback_idempotent [] "p1"
    { postId := "p1", channel := "IG", externalMediaId := "m1",
      metrics := stubMetrics, collectedAt := 1 }
    { postId := "p1", channel := "IG", externalMediaId := "m1",
      metrics := stubMetrics, collectedAt := 2 }
    (by decide) rfl rfl rfl

theorem collectPost_no_token (env : PipelineEnv) (p : PipelinePost)
    (h : env.accessToken = "") :
    collectPost env p = (mkFeedbackResult p stubMetrics, []) := by
  simp [collectPost, h]

theorem collectPost_with_token (env : PipelineEnv) (p : PipelinePost)
    (h : env.accessToken ≠ "") :
    collectPost env p =
      (mkFeedbackResult p
        (match fetchIgMetrics (env.http p.meta_post_id) with
          | Except.ok m => m
          | Except.error _ => stubMetrics),
       [p.meta_post_id]) := by
  rw [collectPost, if_pos h]
  cases fetchIgMetrics (env.http p.meta_post_id) <;> rfl

theorem runPipeline_nil (env : PipelineEnv)
    (hs : env.selectResult = Except.ok []) :
    runFeedbackLoopPipeline env = Except.ok emptyRunOutput := by
  unfold runFeedbackLoopPipeline
  rw [hs]
  rfl

theorem runPipeline_cons_spec (env : PipelineEnv) (posts : List PipelinePost)
    (hs : env.selectResult = Except.ok posts) (hne : posts ≠ []) :
    ∃ out, runFeedbackLoopPipeline env = Except.ok out ∧
      out.attempted = posts.length ∧
      out.results = (posts.map (collectPost env)).map Prod.fst ∧
      out.fetchCalls = ((posts.map (collectPost env)).map Prod.snd).flatten ∧
      out.feedbackWrites =
        (((posts.map (collectPost env)).map Prod.fst).filter
          (fun r => !env.upsertFeedbackThrows r.post_id)).map mkFeedbackRow ∧
      out.prodUpdates = buildProdMap ((posts.map (collectPost env)).map Prod.fst) ∧
      out.styleUpdates =
        (buildStyleMap ((posts.map (collectPost env)).map Prod.fst)).map
          decodeStyleRow ∧
      out.collected = posts.length := by
  cases posts with
  | nil => exact absurd rfl hne
  | cons hd tl =>
    have hrun : runFeedbackLoopPipeline env = Except.ok
        { attempted := (hd :: tl).length
          fetchCalls := (((hd :: tl).map (collectPost env)).map Prod.snd).flatten
          results := ((hd :: tl).map (collectPost env)).map Prod.fst
          feedbackWrites :=
            ((((hd :: tl).map (collectPost env)).map Prod.fst).filter
              (fun r => !env.upsertFeedbackThrows r.post_id)).map mkFeedbackRow
          prodUpdates :=
            buildProdMap (((hd :: tl).map (collectPost env)).map Prod.fst)
          styleUpdates :=
            (buildStyleMap (((hd :: tl).map (collectPost env)).map Prod.fst)).map
              decodeStyleRow
          collected := (((hd :: tl).map (collectPost env)).map Prod.fst).length } := by
      unfold runFeedbackLoopPipeline
      rw [hs]
      rfl
    refine ⟨_, hrun, rfl, rfl, rfl, rfl, rfl, rfl, by simp⟩

theorem flatten_nil_map {α β : Type} (l : List α) :
    (l.map (fun _ => ([] : List β))).flatten = [] := by
  induction l with
  | nil => rfl
  | cons hd tl ih => simpa using ih

/-- C5: with a configured token, every post of the batch yields a result —
a post whose Graph call fails with a ProviderError gets the stub observation
`{likeCount: 1, commentCount: 0}`, the others their real metrics — and the
run's summary reports attempted = batch size; one post's provider failure
never aborts the batch. -/
theorem pipeline_failure_isolation (env : PipelineEnv)
    (posts : List PipelinePost) (hs : env.selectResult = Except.ok posts)
    (hne : posts ≠ []) (htok : env.accessToken ≠ "") :
    ∃ out, runFeedbackLoopPipeline env = Except.ok out ∧
      out.attempted = posts.length ∧
      out.collected = posts.length ∧
      out.results = posts.map (fun p =>
        mkFeedbackResult p
          (match fetchIgMetrics (env.http p.meta_post_id) with
            | Except.ok m => m
            | Except.error _ => stubMetrics)) := by
  obtain ⟨out, hrun, ha, hres, -, -, -, -, hcol⟩ :=
    runPipeline_cons_spec env posts hs hne
  refine ⟨out, hrun, ha, hcol, ?_⟩
  rw [hres, List.map_map]
  apply List.map_congr_left
  intro p hp
  simp [Function.comp, collectPost_with_token env p htok]

/-- Witness for C5: a batch of 3 where only post 2's Graph call fails; posts
1 and 3 are recorded with the real metrics (10 likes, 5 comments), post 2
with the stub, and attempted = 3. -/
theorem pipeline_failure_isolation_witness :
    ∃ out, runFeedbackLoopPipeline envIsolation = Except.ok out ∧
      out.attempted = 3 ∧ out.collected = 3 ∧
      out.results =
        [mkFeedbackResult postA
          { like_count := 10, comments_count := 5, permalink := some "" },
         mkFeedbackResult postB stubMetrics,
         mkFeedbackResult postC
          { like_count := 10, comments_count := 5, permalink := some "" }] := by
  obtain ⟨out, hrun, ha, hc, hres⟩ :=
    pipeline_failure_isolation envIsolation [postA, postB, postC] rfl
      (by decide) (by decide)
  refine ⟨out, hrun, ha, hc, ?_⟩
  rw [hres]
  decide

/-- C6: the run hands back a summary (attempted and collected counts) and
raises an error to its caller exactly when the initial eligible-post read
fails; every per-post error is absorbed inside the run.  The same propagation
policy holds for the feedbackCollect job: it throws exactly when its pending
read fails. -/
theorem pipeline_error_propagation (env : PipelineEnv) (cenv : CollectEnv) :
    ((∀ e, runFeedbackLoopPipeline env = Except.error e ↔
      env.selectResult = Except.error e) ∧
    (∀ posts, env.selectResult = Except.ok posts →
      ∃ out, runFeedbackLoopPipeline env = Except.ok out ∧
        out.attempted = posts.length ∧ out.collected ≤ posts.length)) ∧
    (∀ st, (∃ e, runFeedbackCollectJob cenv st = Except.error e) ↔
      (∃ e, cenv.pending = Except.error e)) := by
  refine ⟨?_, ?_⟩
  case refine_2 =>
    intro st
    constructor
    · rintro ⟨e, h⟩
      cases hp : cenv.pending with
      | error e0 => exact ⟨e0, rfl⟩
      | ok pending =>
        unfold runFeedbackCollectJob at h
        rw [hp] at h
        exact absurd h (by simp)
    · rintro ⟨e0, hp⟩
      refine ⟨"Error leyendo post_feedback: " ++ e0, ?_⟩
      unfold runFeedbackCollectJob
      rw [hp]
  have hrunspec : ∀ posts, env.selectResult = Except.ok posts →
      ∃ out, runFeedbackLoopPipeline env = Except.ok out ∧
        out.attempted = posts.length ∧ out.collected ≤ posts.length := by
    intro posts hok
    cases posts with
    | nil =>
      exact ⟨emptyRunOutput, runPipeline_nil env hok, rfl, by simp [emptyRunOutput]⟩
    | cons hd tl =>
      obtain ⟨out, hrun, ha, -, -, -, -, -, hcol⟩ :=
        runPipeline_cons_spec env (hd :: tl) hok (by simp)
      exact ⟨out, hrun, ha, le_of_eq hcol⟩
  refine ⟨?_, hrunspec⟩
  intro e
  constructor
  · intro h
    cases henv : env.selectResult with
    | error e2 =>
      have hrn : runFeedbackLoopPipeline env = Except.error e2 := by
        unfold runFeedbackLoopPipeline
        rw [henv]
      rw [hrn, Except.error.injEq] at h
      rw [← h]
    | ok posts =>
      obtain ⟨out, hrun, -, -⟩ := hrunspec posts henv
      rw [hrun] at h
      exact absurd h (by simp)
  · intro h
    unfold runFeedbackLoopPipeline
    rw [h]

/-- Witness for C6: a failing initial read surfaces its error; a 1-post
selection returns a summary; a failing pending read makes the collect job
throw. -/
theorem pipeline_error_propagation_witness :
    runFeedbackLoopPipeline
        { selectResult := Except.error "boom", accessToken := "",
          http := fun _ => { ok := false, status := 0, text := "", parsed := none },
          upsertFeedbackThrows := fun _ => false }
      = Except.error "boom" ∧
    (∃ out,
      runFeedbackLoopPipeline
          { selectResult := Except.ok [postA],
            accessToken := "",
            http := fun _ => { ok := false, status := 0, text := "", parsed := none },
            upsertFeedbackThrows := fun _ => false }
        = Except.ok out ∧
      out.attempted = 1 ∧ out.collected ≤ 1) ∧
    ∃ e, runFeedbackCollectJob collectEnvErr emptyCollectState
      = Except.error e :=
  ⟨((pipeline_error_propagation
      { selectResult := Except.error "boom", accessToken := "",
        http := fun _ => { ok := false, status := 0, text := "", parsed := none },
        upsertFeedbackThrows := fun _ => false } collectEnvErr).1.1 "boom").mpr
      rfl,
   (pipeline_error_propagation
      { selectResult := Except.ok [postA],
        accessToken := "",
        http := fun _ => { ok := false, status := 0, text := "", parsed := none },
        upsertFeedbackThrows := fun _ => false } collectEnvErr).1.2
     [postA] rfl,
   ((pipeline_error_propagation
      { selectResult := Except.error "boom", accessToken := "",
        http := fun _ => { ok := false, status := 0, text := "", parsed := none },
        upsertFeedbackThrows := fun _ => false } collectEnvErr).2
     emptyCollectState).mpr ⟨"down", rfl⟩⟩

/-- C7: when no access credential is configured, no Graph call is made for
any post, and every post in the batch receives the stub metrics
`{likeCount: 1, commentCount: 0}`. -/
theorem pipeline_stub_when_no_token (env : PipelineEnv) (out : RunOutput)
    (htok : env.accessToken = "")
    (hrun : runFeedbackLoopPipeline env = Except.ok out) :
    out.fetchCalls = [] ∧ ∀ r ∈ out.results, r.metrics = stubMetrics := by
  cases henv : env.selectResult with
  | error e =>
    have hrn : runFeedbackLoopPipeline env = Except.error e := by
      unfold runFeedbackLoopPipeline
      rw [henv]
    rw [hrn] at hrun
    exact absurd hrun (by simp)
  | ok posts =>
    cases posts with
    | nil =>
      rw [runPipeline_nil env henv, Except.ok.injEq] at hrun
      rw [← hrun]
      exact ⟨rfl, by intro r hr; simp [emptyRunOutput] at hr⟩
    | cons hd tl =>
      obtain ⟨out2, hrun2, -, hres, hcalls, -, -, -, -⟩ :=
        runPipeline_cons_spec env (hd :: tl) henv (by simp)
      rw [hrun2, Except.ok.injEq] at hrun
      rw [← hrun]
      constructor
      · rw [hcalls, List.map_map]
        have hmap : (hd :: tl).map (Prod.snd ∘ collectPost env)
            = (hd :: tl).map (fun _ => ([] : List String)) := by
          apply List.map_congr_left
          intro p hp
          simp [Function.comp, collectPost_no_token env p htok]
        rw [hmap]
        exact flatten_nil_map (hd :: tl)
      · intro r hr
        rw [hres, List.map_map] at hr
        obtain ⟨p, hp, hpr⟩ := List.mem_map.mp hr
        rw [← hpr]
        simp [Function.comp, collectPost_no_token env p htok, mkFeedbackResult]

/-- Witness for C7: a 2-post batch with an empty token and a Graph stub that
would answer if called; no call is recorded and both posts get the stub. -/
theorem pipeline_stub_when_no_token_witness :
    ∃ out,
      runFeedbackLoopPipeline
          { selectResult := Except.ok
              [{ id := "a", product_id := 7, style := "boho",
                 channel_published := "", meta_post_id := "mA" },
               { id := "b", product_id := 7, style := "",
                 channel_published := "FB", meta_post_id := "mB" }],
            accessToken := "",
            http := fun _ =>
              { ok := true, status := 200, text := "",
                parsed := some { like_count := some 3, comments_count := some 1,
                                 permalink := none } },
            upsertFeedbackThrows := fun _ => false }
        = Except.ok out ∧
      out.fetchCalls = [] ∧ ∀ r ∈ out.results, r.metrics = stubMetrics := by
  obtain ⟨out, hrun, -⟩ := runPipeline_cons_spec
    { selectResult := Except.ok
        [{ id := "a", product_id := 7, style := "boho",
           channel_published := "", meta_post_id := "mA" },
         { id := "b", product_id := 7, style := "",
           channel_published := "FB", meta_post_id := "mB" }],
      accessToken := "",
      http := fun _ =>
        { ok := true, status := 200, text := "",
          parsed := some { like_count := some 3, comments_count := some 1,
                           permalink := none } },
      upsertFeedbackThrows := fun _ => false }
    _ rfl (by decide)
  exact ⟨out, hrun, pipeline_stub_when_no_token _ out rfl hrun⟩

theorem mapBump_key_mem {α : Type} [DecidableEq α] (m : List (α × ℚ)) (k : α)
    (v : ℚ) : k ∈ (mapBump m k v).map Prod.fst := by
  induction m with
  | nil => simp [mapBump]
  | cons kv rest ih =>
    by_cases h : kv.1 = k
    · simp [mapBump, h]
    · simp only [mapBump, if_neg h, List.map_cons, List.mem_cons]
      exact Or.inr ih

theorem mapBump_key_preserved {α : Type} [DecidableEq α] (m : List (α × ℚ))
    (k q : α) (v : ℚ) (h : q ∈ m.map Prod.fst) :
    q ∈ (mapBump m k v).map Prod.fst := by
  induction m with
  | nil => simp at h
  | cons kv rest ih =>
    by_cases hk : kv.1 = k
    · simp only [mapBump, if_pos hk, List.map_cons]
      simpa using h
    · simp only [mapBump, if_neg hk, List.map_cons, List.mem_cons] at h ⊢
      rcases h with h | h
      · exact Or.inl h
      · exact Or.inr (ih h)

theorem foldl_styleBump_key (l : List FeedbackResult)
    (acc : List (String × ℚ)) (key : String)
    (h : key ∈ acc.map Prod.fst ∨ ∃ r ∈ l, styleKeyOf r = key) :
    key ∈ ((l.foldl (fun m r => mapBump m (styleKeyOf r) (perfOf r.metrics))
      acc).map Prod.fst) := by
  induction l generalizing acc with
  | nil =>
    rcases h with h | ⟨r, hr, -⟩
    · simpa using h
    · simp at hr
  | cons hd tl ih =>
    rw [List.foldl_cons]
    apply ih
    rcases h with h | ⟨r, hr, hk⟩
    · exact Or.inl
        (mapBump_key_preserved acc (styleKeyOf hd) key (perfOf hd.metrics) h)
    · rcases List.mem_cons.mp hr with rfl | hr2
      · exact Or.inl (hk ▸ mapBump_key_mem acc (styleKeyOf r) (perfOf r.metrics))
      · exact Or.inr ⟨r, hr2, hk⟩

theorem buildStyleMap_key (results : List FeedbackResult) (r : FeedbackResult)
    (hr : r ∈ results) :
    styleKeyOf r ∈ (buildStyleMap results).map Prod.fst :=
  foldl_styleBump_key results [] (styleKeyOf r) (Or.inr ⟨r, hr, rfl⟩)

theorem split_bar_append (s c : String) (hs : '|' ∉ s.data)
    (hc : '|' ∉ c.data) :
    (s ++ "|" ++ c).split (fun ch => ch == '|') = [s, c] := by
  rw [String.split_of_valid]
  have hdata : (s ++ "|" ++ c).data = s.data ++ '|' :: c.data := by
    rw [String.data_append, String.data_append, List.append_assoc]
    rfl
  rw [hdata]
  rw [List.splitOnP_first (fun ch => ch == '|') s.data
    (by
      intro x hx hx2
      rw [beq_iff_eq] at hx2
      rw [hx2] at hx
      exact hs hx)
    '|' (by simp) c.data]
  rw [List.splitOnP_eq_single (fun ch => ch == '|') c.data
    (by
      intro x hx hx2
      rw [beq_iff_eq] at hx2
      rw [hx2] at hx
      exact hc hx)]
  rfl

theorem runPipeline_styleUpdates (env : PipelineEnv) (out : RunOutput)
    (hrun : runFeedbackLoopPipeline env = Except.ok out) :
    out.results = [] ∨
      out.styleUpdates = (buildStyleMap out.results).map decodeStyleRow := by
  cases henv : env.selectResult with
  | error e =>
    have hrn : runFeedbackLoopPipeline env = Except.error e := by
      unfold runFeedbackLoopPipeline
      rw [henv]
    rw [hrn] at hrun
    exact absurd hrun (by simp)
  | ok posts =>
    cases posts with
    | nil =>
      rw [runPipeline_nil env henv, Except.ok.injEq] at hrun
      rw [← hrun]
      exact Or.inl rfl
    | cons hd tl =>
      obtain ⟨out2, hrun2, -, hres, -, -, -, hstyle, -⟩ :=
        runPipeline_cons_spec env (hd :: tl) henv (by simp)
      rw [hrun2, Except.ok.injEq] at hrun
      rw [← hrun]
      right
      rw [hstyle, hres]

/-- C9: the in-batch style accumulator keys results by
`(style || "unknown") + "|" + channel` and the upsert decodes the key by
splitting on `"|"`; so a processed post whose style is non-empty and
bar-free, and whose channel is bar-free, yields a `style_performance` row
carrying exactly its style and channel, while a post with an empty style is
aggregated under style "unknown". -/
theorem style_key_roundtrip (env : PipelineEnv) (out : RunOutput)
    (r : FeedbackResult) (hrun : runFeedbackLoopPipeline env = Except.ok out)
    (hr : r ∈ out.results) (hch : '|' ∉ r.channel.data) :
    (r.style ≠ "" → '|' ∉ r.style.data →
      ∃ row ∈ out.styleUpdates,
        row.style = r.style ∧ row.channel = some r.channel) ∧
    (r.style = "" →
      ∃ row ∈ out.styleUpdates,
        row.style = "unknown" ∧ row.channel = some r.channel) := by
  rcases runPipeline_styleUpdates env out hrun with hnil | hstyle
  · rw [hnil] at hr
    simp at hr
  · obtain ⟨kv, hkv, hfst⟩ := List.mem_map.mp (buildStyleMap_key out.results r hr)
    constructor
    · intro hne hsp
      have hkeyeq : kv.1 = r.style ++ "|" ++ r.channel := by
        rw [hfst]
        simp only [styleKeyOf, if_neg hne]
      have hdec : decodeStyleRow kv =
          { style := r.style, channel := some r.channel, perf_score := kv.2 } := by
        unfold decodeStyleRow
        rw [hkeyeq, split_bar_append r.style r.channel hsp hch]
      refine ⟨decodeStyleRow kv, ?_, ?_, ?_⟩
      · rw [hstyle]
        exact List.mem_map_of_mem decodeStyleRow hkv
      · rw [hdec]
      · rw [hdec]
    · intro hemp
      have hkeyeq : kv.1 = "unknown" ++ "|" ++ r.channel := by
        rw [hfst]
        simp only [styleKeyOf, if_pos hemp]
      have hdec : decodeStyleRow kv =
          { style := "unknown", channel := some r.channel, perf_score := kv.2 } := by
        unfold decodeStyleRow
        rw [hkeyeq, split_bar_append "unknown" r.channel (by decide) hch]
      refine ⟨decodeStyleRow kv, ?_, ?_, ?_⟩
      · rw [hstyle]
        exact List.mem_map_of_mem decodeStyleRow hkv
      · rw [hdec]
      · rw [hdec]

/-- Witness for C9: in the 3-post run, post p1 (style "boho", channel "IG")
yields a style row carrying exactly ("boho", "IG"). -/
theorem style_key_roundtrip_witness :
    ∃ out, runFeedbackLoopPipeline envIsolation = Except.ok out ∧
      ∃ row ∈ out.styleUpdates, row.style = "boho" ∧ row.channel = some "IG" := by
  obtain ⟨out, hrun, -, hres, -, -, -, -, -⟩ :=
    runPipeline_cons_spec envIsolation [postA, postB, postC] rfl (by decide)
  have hr : mkFeedbackResult postA
      { like_count := 10, comments_count := 5, permalink := some "" }
      ∈ out.results := by
    rw [hres]
    decide
  obtain ⟨row, hmem, h1, h2⟩ :=
    (style_key_roundtrip envIsolation out _ hrun hr (by decide)).1
      (by decide) (by decide)
  exact ⟨out, hrun, row, hmem, h1, h2⟩

/-- C4 counterexample: in `runFeedbackLoopPipeline`, the post `pf` whose
`post_feedback` upsert throws produces no feedback write, yet the
`product_performance` and `style_performance` updates of the same run still
carry its score — a failed-upsert post is not excluded from the aggregates. -/
theorem pipeline_upsert_failure_not_excluded :
    ∃ out, runFeedbackLoopPipeline envUpsertFail = Except.ok out ∧
      envUpsertFail.upsertFeedbackThrows "pf" = true ∧
      out.feedbackWrites = [] ∧
      out.prodUpdates = [(42, 1)] ∧
      out.styleUpdates =
        [{ style := "boho", channel := some "IG", perf_score := 1 }] := by
  obtain ⟨out, hrun, -, hres, -, hfw, hprod, hsty, -⟩ :=
    runPipeline_cons_spec envUpsertFail [postF] rfl (by decide)
  have hres2 : (([postF].map (collectPost envUpsertFail)).map Prod.fst)
      = [mkFeedbackResult postF stubMetrics] := by
    rw [List.map_cons, List.map_nil, collectPost_no_token envUpsertFail postF rfl,
      List.map_cons, List.map_nil]
  have hperf : perfOf (mkFeedbackResult postF stubMetrics).metrics = 1 := by
    norm_num [perfOf, mkFeedbackResult, stubMetrics]
  refine ⟨out, hrun, rfl, ?_, ?_, ?_⟩
  · rw [hfw]
    decide
  · rw [hprod, hres2]
    show [((mkFeedbackResult postF stubMetrics).product_id,
      perfOf (mkFeedbackResult postF stubMetrics).metrics)] = [(42, 1)]
    rw [hperf]
    rfl
  · rw [hsty, hres2]
    have hkey : styleKeyOf (mkFeedbackResult postF stubMetrics)
        = "boho" ++ "|" ++ "IG" := by decide
    have hone : buildStyleMap [mkFeedbackResult postF stubMetrics]
        = [("boho" ++ "|" ++ "IG", 1)] := by
      show [(styleKeyOf (mkFeedbackResult postF stubMetrics),
        perfOf (mkFeedbackResult postF stubMetrics).metrics)]
        = [("boho" ++ "|" ++ "IG", 1)]
      rw [hkey, hperf]
    rw [hone]
    have hdec : decodeStyleRow ("boho" ++ "|" ++ "IG", (1 : ℚ))
        = { style := "boho", channel := some "IG", perf_score := 1 } := by
      unfold decodeStyleRow
      rw [split_bar_append "boho" "IG" (by decide) (by decide)]
    rw [List.map_cons, List.map_nil, hdec]

/-- C4 (amended): in the feedbackCollect job, a post whose `post_feedback`
update fails contributes nothing to the aggregate tables — the loop continues
with the state unchanged; in the feedbackLoop pipeline, by contrast, the
aggregate updates are a function of the collected results alone, independent
of the feedback-upsert outcomes, so a post whose feedback write failed still
contributes its score. -/
theorem upsert_failure_aggregate_policy :
    (∀ (env : CollectEnv) (st : CollectState) (row : PendingRow),
      env.updateFeedbackOk row.id = false → processRow env st row = st) ∧
    (∀ envA envB : PipelineEnv,
      envA.selectResult = envB.selectResult →
      envA.accessToken = envB.accessToken →
      envA.http = envB.http →
      ∀ outA outB, runFeedbackLoopPipeline envA = Except.ok outA →
        runFeedbackLoopPipeline envB = Except.ok outB →
        outA.prodUpdates = outB.prodUpdates ∧
        outA.styleUpdates = outB.styleUpdates) := by
  constructor
  · intro env st row h
    cases hf : env.fetchResult row.ig_media_id with
    | error e => simp [processRow, hf]
    | ok metrics => simp [processRow, hf, h]
  · intro envA envB hsel htok hhttp outA outB hrunA hrunB
    obtain ⟨sA, tA, hA, fA⟩ := envA
    obtain ⟨sB, tB, hB, fB⟩ := envB
    simp only at hsel htok hhttp
    subst hsel
    subst htok
    subst hhttp
    cases hs : sA with
    | error e =>
      rw [hs] at hrunA
      simp [runFeedbackLoopPipeline] at hrunA
    | ok posts =>
      rw [hs] at hrunA hrunB
      cases posts with
      | nil =>
        rw [runPipeline_nil _ rfl, Except.ok.injEq] at hrunA hrunB
        rw [← hrunA, ← hrunB]
        exact ⟨rfl, rfl⟩
      | cons hd tl =>
        obtain ⟨oA, hrA, -, -, -, -, hprodA, hstyA, -⟩ :=
          runPipeline_cons_spec ⟨Except.ok (hd :: tl), tA, hA, fA⟩
            (hd :: tl) rfl (by simp)
        obtain ⟨oB, hrB, -, -, -, -, hprodB, hstyB, -⟩ :=
          runPipeline_cons_spec ⟨Except.ok (hd :: tl), tA, hA, fB⟩
            (hd :: tl) rfl (by simp)
        rw [hrA, Except.ok.injEq] at hrunA
        rw [hrB, Except.ok.injEq] at hrunB
        rw [← hrunA, ← hrunB]
        have hcp : collectPost ⟨Except.ok (hd :: tl), tA, hA, fA⟩
            = collectPost ⟨Except.ok (hd :: tl), tA, hA, fB⟩ :=
          funext fun p => rfl
        constructor
        · rw [hprodA, hprodB, hcp]
        · rw [hstyA, hstyB, hcp]

/-- Witness for the amended C4: a failing feedback update leaves the collect
job's state untouched, while the pipeline's aggregate updates agree between a
throwing and a succeeding upsert on the same 1-post batch. -/
theorem upsert_failure_aggregate_policy_witness :
    processRow collectEnvW emptyCollectState pendingRowW = emptyCollectState ∧
    ∃ outA outB, runFeedbackLoopPipeline envUpsertFail = Except.ok outA ∧
      runFeedbackLoopPipeline envUpsertOk = Except.ok outB ∧
      outA.prodUpdates = outB.prodUpdates ∧
      outA.styleUpdates = outB.styleUpdates := by
  constructor
  · exact upsert_failure_aggregate_policy.1 collectEnvW _ pendingRowW rfl
  · obtain ⟨outA, hrA, -⟩ :=
      runPipeline_cons_spec envUpsertFail [postF] rfl (by decide)
    obtain ⟨outB, hrB, -⟩ :=
      runPipeline_cons_spec envUpsertOk [postF] rfl (by decide)
    obtain ⟨h1, h2⟩ := upsert_failure_aggregate_policy.2 envUpsertFail
      envUpsertOk rfl rfl rfl outA outB hrA hrB
    exact ⟨outA, outB, hrA, hrB, h1, h2⟩

end ContentCreator
